import Mathlib

/-!
GroupieTracker (Pokédex front-end): embedding of `main.go`.

The program is a small HTTP front-end over a public REST endpoint.  The
embedding keeps the source's function names.  Effects are made explicit:

* the upstream endpoint is a function from the requested URL to either a
  decoded record or an error (`Upstream`);
* every call of `idpokedex` / `namepokedex` is appended to a trace of fetches;
* the `http.ResponseWriter` is a small state (status line, body chunks);
* a parsed template is a function from its render context to the chunks it
  writes and the error it returns;
* the iteration order of the Go map in `startersPokedex` is a parameter.

Go's `int` is 64 bits wide; the only arithmetic in the program is the loop
counter of `generationPokedex`, bounded by 1009, so `Int` is used directly.
Go's `error` values are represented by their message.
-/

namespace GroupieTracker

/-! ## Data model -/

/-- The `Type` struct: one type name (`types[].type.name`). -/
structure Type' where
  Name : String
deriving DecidableEq, Repr

/-- The `Pokemon` struct decoded from the upstream JSON. -/
structure Pokemon where
  Generation : Int
  ID : Int
  Name : String
  Types : List Type'
  FrontDefault : String
deriving DecidableEq, Repr

/-- Go errors, represented by their message. -/
abbrev Error := String

/-- The upstream endpoint: `http.Get(url)` followed by JSON decoding of the
body, as one function of the URL.  No run of the program requests the same URL
twice within one call, so a function loses no behaviour of the endpoint. -/
abbrev Upstream := String → Except Error Pokemon

/-- One call of a fetch function. -/
inductive Fetch where
  | byID (pokemonID : Int)
  | byName (pokemonName : String)
deriving DecidableEq, Repr

/-- The fetches performed so far, oldest first. -/
abbrev Trace := List Fetch

/-- The URL built by `fmt.Sprintf(".../pokemon/%s", pokemonName)`. -/
def nameURL (pokemonName : String) : String :=
  "https://pokeapi.co/api/v2/pokemon/" ++ pokemonName

/-- The URL built by `fmt.Sprintf(".../pokemon/%d", pokemonID)`. -/
def idURL (pokemonID : Int) : String :=
  "https://pokeapi.co/api/v2/pokemon/" ++ toString pokemonID

/-- Function `namepokedex`: one GET of the name URL, decoded into a record. -/
def namepokedex (up : Upstream) (pokemonName : String) (tr : Trace) :
    Except Error Pokemon × Trace :=
  (up (nameURL pokemonName), tr ++ [Fetch.byName pokemonName])

/-- Function `idpokedex`: one GET of the ID URL, decoded into a record. -/
def idpokedex (up : Upstream) (pokemonID : Int) (tr : Trace) :
    Except Error Pokemon × Trace :=
  (up (idURL pokemonID), tr ++ [Fetch.byID pokemonID])

/-! ## `generationPokedex` -/

/-- The `switch generation` of `generationPokedex`: the inclusive pair
`(startID, endID)`, or `none` for the `default` branch. -/
def generationRange (generation : Int) : Option (Int × Int) :=
  if generation = 1 then some (1, 151)
  else if generation = 2 then some (152, 251)
  else if generation = 3 then some (252, 386)
  else if generation = 4 then some (387, 493)
  else if generation = 5 then some (494, 649)
  else if generation = 6 then some (650, 721)
  else if generation = 7 then some (722, 809)
  else if generation = 8 then some (810, 1008)
  else none

/-- The loop `for i := startID; i <= endID; i++` of `generationPokedex`, entered
with counter `i` and the list collected so far. -/
def generationLoop (up : Upstream) (endID : Int) (i : Int)
    (pokemonList : List Pokemon) (tr : Trace) :
    Except Error (List Pokemon) × Trace :=
  if i ≤ endID then
    match idpokedex up i tr with
    | (Except.error err, tr1) => (Except.error err, tr1)
    | (Except.ok pokemon, tr1) =>
        generationLoop up endID (i + 1) (pokemonList ++ [pokemon]) tr1
  else (Except.ok pokemonList, tr)
termination_by (endID + 1 - i).toNat
decreasing_by omega

/-- Function `generationPokedex`: resolve the range, then fetch every ID of it. -/
def generationPokedex (up : Upstream) (generation : Int) (tr : Trace) :
    Except Error (List Pokemon) × Trace :=
  match generationRange generation with
  | none => (Except.error "invalid generation number", tr)
  | some (startID, endID) => generationLoop up endID startID [] tr

/-! ## `strconv.Atoi` -/

/-- Value of a string of decimal digits, most significant first. -/
def digitsValue (ds : List Char) : Nat :=
  ds.foldl (fun acc c => 10 * acc + (c.toNat - 48)) 0

/-- The library function `strconv.Atoi` for a 64-bit `int`: an optional sign `+` or `-`, then one or
more decimal digits; a value outside the `int` range is an error. -/
def Atoi (s : String) : Except Error Int :=
  let body : Bool × List Char :=
    match s.toList with
    | '+' :: rest => (false, rest)
    | '-' :: rest => (true, rest)
    | cs => (false, cs)
  if body.2.isEmpty || !(body.2.all Char.isDigit) then
    Except.error ("strconv.Atoi: parsing " ++ s.quote ++ ": invalid syntax")
  else
    let v : Int := if body.1 then -(digitsValue body.2 : Int) else (digitsValue body.2 : Int)
    if v < -9223372036854775808 ∨ 9223372036854775807 < v then
      Except.error ("strconv.Atoi: parsing " ++ s.quote ++ ": value out of range")
    else Except.ok v

/-! ## HTTP boundary -/

/-- The part of `http.ResponseWriter` the handlers touch: the status line once
it has been written, and the body chunks written so far. -/
structure ResponseWriter where
  status : Option Nat
  body : List String
deriving DecidableEq, Repr

/-- Method `w.WriteHeader(code)`: only the first call sets the status. -/
def ResponseWriter.WriteHeader (w : ResponseWriter) (code : Nat) : ResponseWriter :=
  match w.status with
  | none => { w with status := some code }
  | some _ => w

/-- Method `w.Write(chunk)`: writes the header with 200 if none was written. -/
def ResponseWriter.Write (w : ResponseWriter) (chunk : String) : ResponseWriter :=
  let w1 := w.WriteHeader 200
  { w1 with body := w1.body ++ [chunk] }

/-- The status the client receives: 200 when the handler returns without
having written a header. -/
def ResponseWriter.code (w : ResponseWriter) : Nat :=
  w.status.getD 200

/-- The library function `http.Error(w, msg, code)`: the header with `code`, then
the message as body. -/
def httpError (w : ResponseWriter) (msg : String) (code : Nat) : ResponseWriter :=
  (w.WriteHeader code).Write msg

/-- Constant `http.StatusBadRequest`. -/
def StatusBadRequest : Nat := 400
/-- Constant `http.StatusInternalServerError`. -/
def StatusInternalServerError : Nat := 500
/-- Constant `http.StatusMethodNotAllowed`. -/
def StatusMethodNotAllowed : Nat := 405
/-- Constant `http.MethodPost`. -/
def MethodPost : String := "POST"
/-- Constant `http.MethodGet`. -/
def MethodGet : String := "GET"

/-- The render context handed to `tmpl.Execute`. -/
inductive TemplateData where
  | null
  | pokemon (p : Pokemon)
  | pokemonList (l : List Pokemon)
deriving DecidableEq, Repr

/-- What executing a template does: the chunks it writes, in order, and the
error it returns (`none` for a `nil` error). -/
structure ExecResult where
  written : List String
  err : Option Error
deriving DecidableEq, Repr

/-- A parsed template file (`template.Must(template.ParseFiles(...))`); the
template files are not part of the source and are a parameter. -/
abbrev Template := TemplateData → ExecResult

/-- The part of `*http.Request` the handlers read. -/
structure Request where
  Method : String
  /-- the error returned by `r.ParseForm()`, if any -/
  ParseForm : Option Error
  /-- the function `r.FormValue` -/
  FormValue : String → String

/-- Everything a handler can change. -/
structure World where
  w : ResponseWriter
  fetches : Trace
  executed : List TemplateData
deriving DecidableEq, Repr

/-- The state in which a handler is entered: nothing written, nothing fetched,
nothing rendered. -/
def World.fresh : World :=
  { w := { status := none, body := [] }, fetches := [], executed := [] }

/-- Method `tmpl.Execute(w, data)`: records the render context, writes the chunks and
returns the template's error. -/
def Execute (tmpl : Template) (data : TemplateData) (σ : World) : Option Error × World :=
  ((tmpl data).err,
    { σ with w := (tmpl data).written.foldl ResponseWriter.Write σ.w,
             executed := σ.executed ++ [data] })

/-- Handler `servePokedexPage`, entered once `template.Must` has returned the
parsed template `tmpl`. -/
def servePokedexPage (up : Upstream) (tmpl : Template) (r : Request) (σ : World) : World :=
  if r.Method = MethodPost then
    match r.ParseForm with
    | some _ => { σ with w := httpError σ.w "Bad Request" StatusBadRequest }
    | none =>
      let pokedexID := r.FormValue "pokedexID"
      match Atoi pokedexID with
      | Except.error _ =>
        match namepokedex up pokedexID σ.fetches with
        | (Except.error _, tr) =>
          { σ with w := httpError σ.w "Bad Request" StatusBadRequest, fetches := tr }
        | (Except.ok pokemon, tr) =>
          match Execute tmpl (TemplateData.pokemon pokemon) { σ with fetches := tr } with
          | (some err, σ1) => { σ1 with w := httpError σ1.w err StatusInternalServerError }
          | (none, σ1) => σ1
      | Except.ok id =>
        match idpokedex up id σ.fetches with
        | (Except.error _, tr) =>
          { σ with w := httpError σ.w "Internal Server Error" StatusInternalServerError,
                   fetches := tr }
        | (Except.ok pokemon, tr) =>
          match Execute tmpl (TemplateData.pokemon pokemon) { σ with fetches := tr } with
          | (some err, σ1) => { σ1 with w := httpError σ1.w err StatusInternalServerError }
          | (none, σ1) => σ1
  else (Execute tmpl TemplateData.null σ).2

/-- Handler `serveGenerationPage`, entered once `template.Must` has returned the
parsed template `tmpl`. -/
def serveGenerationPage (up : Upstream) (tmpl : Template) (r : Request) (σ : World) : World :=
  if r.Method = MethodPost then
    match r.ParseForm with
    | some _ => { σ with w := httpError σ.w "Bad Request" StatusBadRequest }
    | none =>
      let generationStr := r.FormValue "generation"
      match Atoi generationStr with
      | Except.error _ => { σ with w := httpError σ.w "Bad Request" StatusBadRequest }
      | Except.ok generation =>
        match generationPokedex up generation σ.fetches with
        | (Except.error _, tr) =>
          { σ with w := httpError σ.w "Internal Server Error" StatusInternalServerError,
                   fetches := tr }
        | (Except.ok pokemonList, tr) =>
          match Execute tmpl (TemplateData.pokemonList pokemonList) { σ with fetches := tr } with
          | (some err, σ1) => { σ1 with w := httpError σ1.w err StatusInternalServerError }
          | (none, σ1) => σ1
  else (Execute tmpl TemplateData.null σ).2

/-! ## Starters -/

/-- The map literal `generations` of `startersPokedex`, as its key/value pairs
in the order of the literal. -/
def generations : List (Int × Int) :=
  [(1, 1), (2, 4), (3, 7), (4, 152), (5, 155), (6, 158), (7, 252), (8, 255),
   (9, 258), (10, 387), (11, 390), (12, 393), (13, 495), (14, 498), (15, 501),
   (16, 650), (17, 653), (18, 656), (19, 722), (20, 725), (21, 728), (22, 810),
   (23, 813), (24, 816), (25, 909), (26, 912), (27, 906)]

/-- The body of `for generation, startID := range generations`, run over the
entries still to be visited. -/
def startersLoop (up : Upstream) :
    List (Int × Int) → List Pokemon → Trace → Except Error (List Pokemon) × Trace
  | [], pokemonList, tr => (Except.ok pokemonList, tr)
  | (generation, startID) :: rest, pokemonList, tr =>
    match idpokedex up startID tr with
    | (Except.error err, tr1) => (Except.error err, tr1)
    | (Except.ok pokemon, tr1) =>
      startersLoop up rest (pokemonList ++ [{ pokemon with Generation := generation }]) tr1

/-- Function `startersPokedex`.  Go leaves the iteration order of a map unspecified:
`order` is the order in which this run visits the entries of `generations`. -/
def startersPokedex (up : Upstream) (order : List (Int × Int)) (tr : Trace) :
    Except Error (List Pokemon) × Trace :=
  startersLoop up order [] tr

/-- Handler `serveStartersPage`, entered once `template.Must` has returned the
parsed template `tmpl`. -/
def serveStartersPage (up : Upstream) (tmpl : Template) (order : List (Int × Int))
    (r : Request) (σ : World) : World :=
  if r.Method = MethodGet then
    match startersPokedex up order σ.fetches with
    | (Except.error _, tr) =>
      { σ with w := httpError σ.w "Internal Server Error" StatusInternalServerError,
               fetches := tr }
    | (Except.ok pokemonList, tr) =>
      match Execute tmpl (TemplateData.pokemonList pokemonList) { σ with fetches := tr } with
      | (some err, σ1) => { σ1 with w := httpError σ1.w err StatusInternalServerError }
      | (none, σ1) => σ1
  else { σ with w := httpError σ.w "Method not allowed" StatusMethodNotAllowed }

/-! ## Auxiliary definitions used in the statements -/

/-- The `n` consecutive IDs `startID, startID + 1, ...`, in increasing order. -/
def idsFrom (startID : Int) : Nat → List Int
  | 0 => []
  | n + 1 => startID :: idsFrom (startID + 1) n

/-- A sample upstream that answers every URL with a record named after it. -/
def upEcho : Upstream :=
  fun url => Except.ok { Generation := 0, ID := 0, Name := url, Types := [], FrontDefault := "" }

/-- A sample upstream that is down: every request fails. -/
def upDown : Upstream :=
  fun _ => Except.error "connection refused"

/-- A sample upstream that fails for exactly one URL. -/
def upMissing (bad : String) : Upstream :=
  fun url => if url = bad then Except.error "invalid character" else upEcho url

/-- A sample upstream that knows the first two starters and echoes the rest. -/
def upKanto : Upstream :=
  fun url =>
    if url = idURL 1 then
      Except.ok { Generation := 0, ID := 1, Name := "bulbasaur",
                  Types := [{ Name := "grass" }, { Name := "poison" }], FrontDefault := "1.png" }
    else if url = idURL 4 then
      Except.ok { Generation := 0, ID := 4, Name := "charmander",
                  Types := [{ Name := "fire" }], FrontDefault := "4.png" }
    else upEcho url

/-- A sample template that writes one chunk and succeeds. -/
def tmplOK : Template :=
  fun _ => { written := ["<html>"], err := none }

/-- A sample request with one form field. -/
def sampleRequest (method field value : String) : Request :=
  { Method := method, ParseForm := none,
    FormValue := fun key => if key = field then value else "" }

/-! ## Lemmas -/

theorem idsFrom_length (n : Nat) : ∀ s : Int, (idsFrom s n).length = n := by
  induction n with
  | zero => intro s; rfl
  | succ n ih => intro s; simp [idsFrom, ih]

theorem idsFrom_getElem? (n : Nat) :
    ∀ (s : Int) (j : Nat), j < n → (idsFrom s n)[j]? = some (s + (j : Int)) := by
  induction n with
  | zero => intro s j hj; omega
  | succ n ih =>
    intro s j hj
    cases j with
    | zero => simp [idsFrom]
    | succ j =>
      have h := ih (s + 1) j (by omega)
      simp only [idsFrom, List.getElem?_cons_succ, h]
      congr 1
      push_cast
      ring

theorem mem_idsFrom (n : Nat) :
    ∀ (s x : Int), x ∈ idsFrom s n ↔ s ≤ x ∧ x < s + (n : Int) := by
  induction n with
  | zero => intro s x; simp [idsFrom]
  | succ n ih =>
    intro s x
    simp only [idsFrom, List.mem_cons, ih]
    push_cast
    omega

theorem generationLoop_unfold (up : Upstream) (endID i : Int) (acc : List Pokemon)
    (tr : Trace) :
    generationLoop up endID i acc tr =
      if i ≤ endID then
        match up (idURL i) with
        | Except.error err => (Except.error err, tr ++ [Fetch.byID i])
        | Except.ok pokemon =>
            generationLoop up endID (i + 1) (acc ++ [pokemon]) (tr ++ [Fetch.byID i])
      else (Except.ok acc, tr) := by
  rw [generationLoop]
  split
  · simp only [idpokedex]
    cases up (idURL i) <;> rfl
  · rfl

/-- The loop run to its end when every fetch from `i` to `endID` succeeds. -/
theorem generationLoop_ok (up : Upstream) (f : Int → Pokemon) (endID : Int) (n : Nat) :
    ∀ (i : Int) (acc : List Pokemon) (tr : Trace),
      (endID + 1 - i).toNat = n →
      (∀ id, i ≤ id → id ≤ endID → up (idURL id) = Except.ok (f id)) →
      generationLoop up endID i acc tr =
        (Except.ok (acc ++ (idsFrom i n).map f), tr ++ (idsFrom i n).map Fetch.byID) := by
  induction n with
  | zero =>
    intro i acc tr hn _
    rw [generationLoop_unfold, if_neg (by omega)]
    simp [idsFrom]
  | succ n ih =>
    intro i acc tr hn hf
    have hi : i ≤ endID := by omega
    rw [generationLoop_unfold, if_pos hi, hf i le_rfl hi]
    simp only
    rw [ih (i + 1) _ _ (by omega) (fun id h1 h2 => hf id (by omega) h2)]
    simp [idsFrom]

/-- The loop stopped by the first failing fetch, at `k`. -/
theorem generationLoop_error (up : Upstream) (endID k : Int) (err : Error) (n : Nat) :
    ∀ (i : Int) (acc : List Pokemon) (tr : Trace),
      (k - i).toNat = n → i ≤ k → k ≤ endID →
      (∀ id, i ≤ id → id < k → ∃ p, up (idURL id) = Except.ok p) →
      up (idURL k) = Except.error err →
      generationLoop up endID i acc tr =
        (Except.error err, tr ++ (idsFrom i (n + 1)).map Fetch.byID) := by
  induction n with
  | zero =>
    intro i acc tr hn hik hke _ hk
    have : i = k := by omega
    subst this
    rw [generationLoop_unfold, if_pos hke, hk]
    simp [idsFrom]
  | succ n ih =>
    intro i acc tr hn hik hke hok hk
    obtain ⟨p, hp⟩ := hok i le_rfl (by omega)
    rw [generationLoop_unfold, if_pos (by omega), hp]
    simp only
    rw [ih (i + 1) _ _ (by omega) (by omega) hke (fun id h1 h2 => hok id (by omega) h2) hk]
    simp [idsFrom]

/-- Among the IDs from `s` on, a failing one has a smallest failing one below it. -/
theorem exists_first_failure (up : Upstream) (s id : Int) (hs : s ≤ id)
    (hfail : ∃ err, up (idURL id) = Except.error err) :
    ∃ k err, s ≤ k ∧ k ≤ id ∧ up (idURL k) = Except.error err ∧
      ∀ j, s ≤ j → j < k → ∃ p, up (idURL j) = Except.ok p := by
  classical
  have hP : ∃ m : Nat, ∃ err, up (idURL (s + (m : Int))) = Except.error err := by
    refine ⟨(id - s).toNat, ?_⟩
    have : s + ((id - s).toNat : Int) = id := by omega
    rw [this]
    exact hfail
  obtain ⟨err, herr⟩ := Nat.find_spec hP
  refine ⟨s + (Nat.find hP : Int), err, by omega, ?_, herr, ?_⟩
  · have h := Nat.find_min' hP (m := (id - s).toNat) (by
      have : s + ((id - s).toNat : Int) = id := by omega
      rw [this]
      exact hfail)
    omega
  · intro j hj1 hj2
    have hlt : (j - s).toNat < Nat.find hP := by omega
    have hnot := Nat.find_min hP hlt
    have hj : s + ((j - s).toNat : Int) = j := by omega
    rw [hj] at hnot
    cases h : up (idURL j) with
    | error e => exact absurd ⟨e, h⟩ hnot
    | ok p => exact ⟨p, rfl⟩

theorem generationRange_some (g s e : Int) (h : generationRange g = some (s, e)) :
    1 ≤ g ∧ g ≤ 8 ∧ 1 ≤ s ∧ s ≤ e ∧ e ≤ 1008 := by
  unfold generationRange at h
  split_ifs at h <;> simp at h <;> omega

theorem generationRange_isSome (g : Int) (h : 1 ≤ g ∧ g ≤ 8) :
    ∃ s e, generationRange g = some (s, e) := by
  have : g = 1 ∨ g = 2 ∨ g = 3 ∨ g = 4 ∨ g = 5 ∨ g = 6 ∨ g = 7 ∨ g = 8 := by omega
  rcases this with rfl | rfl | rfl | rfl | rfl | rfl | rfl | rfl <;> exact ⟨_, _, rfl⟩

theorem generationRange_none (g : Int) (h : ¬ (1 ≤ g ∧ g ≤ 8)) :
    generationRange g = none := by
  unfold generationRange
  split_ifs <;> first | rfl | omega

/-- The starters loop run to its end when every fetch succeeds. -/
theorem startersLoop_ok (up : Upstream) (fetched : Int → Pokemon) :
    ∀ (order : List (Int × Int)) (acc : List Pokemon) (tr : Trace),
      (∀ x ∈ order, up (idURL x.2) = Except.ok (fetched x.2)) →
      startersLoop up order acc tr =
        (Except.ok (acc ++ order.map (fun x => { fetched x.2 with Generation := x.1 })),
          tr ++ order.map (fun x => Fetch.byID x.2)) := by
  intro order
  induction order with
  | nil => intro acc tr _; simp [startersLoop]
  | cons x rest ih =>
    intro acc tr h
    obtain ⟨generation, startID⟩ := x
    have hx := h (generation, startID) (List.mem_cons_self _ _)
    simp only at hx
    simp only [startersLoop, idpokedex, hx]
    rw [ih _ _ (fun y hy => h y (List.mem_cons_of_mem _ hy))]
    simp

/-- The starters loop stopped by the first failing fetch. -/
theorem startersLoop_error (up : Upstream) (x : Int × Int) (post : List (Int × Int))
    (err : Error) (hx : up (idURL x.2) = Except.error err) :
    ∀ (pre : List (Int × Int)) (acc : List Pokemon) (tr : Trace),
      (∀ y ∈ pre, ∃ p, up (idURL y.2) = Except.ok p) →
      startersLoop up (pre ++ x :: post) acc tr =
        (Except.error err, tr ++ (pre ++ [x]).map (fun y => Fetch.byID y.2)) := by
  intro pre
  induction pre with
  | nil =>
    intro acc tr _
    obtain ⟨generation, startID⟩ := x
    simp only at hx
    simp [startersLoop, idpokedex, hx]
  | cons y rest ih =>
    intro acc tr h
    obtain ⟨generation, startID⟩ := y
    obtain ⟨p, hp⟩ := h (generation, startID) (List.mem_cons_self _ _)
    simp only at hp
    have hrec := ih
      (acc ++ [{ p with Generation := generation }]) (tr ++ [Fetch.byID startID])
      (fun z hz => h z (List.mem_cons_of_mem _ hz))
    rw [List.cons_append]
    simp only [startersLoop, idpokedex, hp]
    rw [hrec]
    simp

/-- A list with a failing entry splits at its first failing entry. -/
theorem exists_first_failing_entry (up : Upstream) :
    ∀ order : List (Int × Int),
      (∃ x ∈ order, ∃ err, up (idURL x.2) = Except.error err) →
      ∃ (pre : List (Int × Int)) (x : Int × Int) (post : List (Int × Int)) (err : Error),
        order = pre ++ x :: post ∧
        (∀ y ∈ pre, ∃ p, up (idURL y.2) = Except.ok p) ∧
        up (idURL x.2) = Except.error err := by
  intro order
  induction order with
  | nil => rintro ⟨x, hx, _⟩; simp at hx
  | cons a rest ih =>
    rintro ⟨x, hx, err, herr⟩
    cases ha : up (idURL a.2) with
    | error e => exact ⟨[], a, rest, e, rfl, by simp, ha⟩
    | ok p =>
      have hxr : x ∈ rest := by
        rcases List.mem_cons.mp hx with h | h
        · subst h; rw [ha] at herr; cases herr
        · exact h
      obtain ⟨pre, y, post, e, hsplit, hpre, hy⟩ := ih ⟨x, hxr, err, herr⟩
      refine ⟨a :: pre, y, post, e, by simp [hsplit], ?_, hy⟩
      intro z hz
      rcases List.mem_cons.mp hz with h | h
      · subst h; exact ⟨p, ha⟩
      · exact hpre z h

/-- Writing chunks to a writer whose status is unset or 200 leaves it so. -/
theorem foldl_Write_status (chunks : List String) :
    ∀ w : ResponseWriter, (w.status = none ∨ w.status = some 200) →
      ((chunks.foldl ResponseWriter.Write w).status = none ∨
        (chunks.foldl ResponseWriter.Write w).status = some 200) := by
  induction chunks with
  | nil => intro w h; exact h
  | cons c rest ih =>
    intro w h
    apply ih
    right
    rcases h with h | h <;> simp [ResponseWriter.Write, ResponseWriter.WriteHeader, h]

/-- After a template ran on a fresh writer, the status is 200, also when
`http.Error` is called afterwards with 500 and chunks were already written; it is
500 when nothing had been written. -/
theorem code_after_Execute (tmpl : Template) (data : TemplateData) (tr : Trace) :
    ((Execute tmpl data { World.fresh with fetches := tr }).2.w.code = 200) ∧
    (∀ msg : String,
      (httpError (Execute tmpl data { World.fresh with fetches := tr }).2.w msg
        StatusInternalServerError).code = 200 ∨
      (httpError (Execute tmpl data { World.fresh with fetches := tr }).2.w msg
        StatusInternalServerError).code = 500) := by
  have h := foldl_Write_status (tmpl data).written World.fresh.w (Or.inl rfl)
  constructor
  · rcases h with h | h <;> simp [Execute, ResponseWriter.code, h]
  · intro msg
    rcases h with h | h
    · right
      simp [Execute, httpError, ResponseWriter.code, ResponseWriter.Write,
        ResponseWriter.WriteHeader, h, StatusInternalServerError]
    · left
      simp [Execute, httpError, ResponseWriter.code, ResponseWriter.Write,
        ResponseWriter.WriteHeader, h]

/-- With a resolved range, `generationPokedex` fails exactly when the upstream
fails for some ID of the range. -/
theorem generationPokedex_error_iff (up : Upstream) (g s e : Int) (tr : Trace)
    (hr : generationRange g = some (s, e)) :
    (∃ err, (generationPokedex up g tr).1 = Except.error err) ↔
      ∃ id, s ≤ id ∧ id ≤ e ∧ ∃ err, up (idURL id) = Except.error err := by
  constructor
  · intro hres
    by_contra hnone
    let f : Int → Pokemon := fun id =>
      match up (idURL id) with
      | Except.ok p => p
      | Except.error _ =>
        { Generation := 0, ID := 0, Name := "", Types := [], FrontDefault := "" }
    have hf : ∀ id, s ≤ id → id ≤ e → up (idURL id) = Except.ok (f id) := by
      intro id h1 h2
      cases h : up (idURL id) with
      | error err => exact absurd ⟨id, h1, h2, err, h⟩ hnone
      | ok p => simp only [f, h]
    have h := generationLoop_ok up f e (e + 1 - s).toNat s [] tr rfl hf
    obtain ⟨err, herr⟩ := hres
    simp [generationPokedex, hr, h] at herr
  · rintro ⟨id, h1, h2, hid⟩
    obtain ⟨k, err, hk1, hk2, hkerr, hbefore⟩ := exists_first_failure up s id h1 hid
    have h := generationLoop_error up e k err (k - s).toNat s [] tr rfl hk1 (by omega)
      hbefore hkerr
    exact ⟨err, by simp [generationPokedex, hr, h]⟩

/-- The eight rows of the table, read back from a resolved range. -/
theorem generationRange_cases (g s e : Int) (h : generationRange g = some (s, e)) :
    (g = 1 ∧ s = 1 ∧ e = 151) ∨ (g = 2 ∧ s = 152 ∧ e = 251) ∨
    (g = 3 ∧ s = 252 ∧ e = 386) ∨ (g = 4 ∧ s = 387 ∧ e = 493) ∨
    (g = 5 ∧ s = 494 ∧ e = 649) ∨ (g = 6 ∧ s = 650 ∧ e = 721) ∨
    (g = 7 ∧ s = 722 ∧ e = 809) ∨ (g = 8 ∧ s = 810 ∧ e = 1008) := by
  unfold generationRange at h
  split_ifs at h with h1 h2 h3 h4 h5 h6 h7 h8 <;>
    simp only [Option.some.injEq, Prod.mk.injEq, reduceCtorEq] at h
  · exact Or.inl ⟨h1, h.1.symm, h.2.symm⟩
  · exact Or.inr (Or.inl ⟨h2, h.1.symm, h.2.symm⟩)
  · exact Or.inr (Or.inr (Or.inl ⟨h3, h.1.symm, h.2.symm⟩))
  · exact Or.inr (Or.inr (Or.inr (Or.inl ⟨h4, h.1.symm, h.2.symm⟩)))
  · exact Or.inr (Or.inr (Or.inr (Or.inr (Or.inl ⟨h5, h.1.symm, h.2.symm⟩))))
  · exact Or.inr (Or.inr (Or.inr (Or.inr (Or.inr (Or.inl ⟨h6, h.1.symm, h.2.symm⟩)))))
  · exact Or.inr (Or.inr (Or.inr (Or.inr (Or.inr (Or.inr (Or.inl
      ⟨h7, h.1.symm, h.2.symm⟩))))))
  · exact Or.inr (Or.inr (Or.inr (Or.inr (Or.inr (Or.inr (Or.inr
      ⟨h8, h.1.symm, h.2.symm⟩))))))

/-- The resolved ranges are pairwise disjoint: an ID lies in at most one. -/
theorem generationRange_unique (g g2 s e s2 e2 id : Int)
    (h : generationRange g = some (s, e)) (h2 : generationRange g2 = some (s2, e2))
    (hid : s ≤ id ∧ id ≤ e) (hid2 : s2 ≤ id ∧ id ≤ e2) : g2 = g := by
  have c := generationRange_cases g s e h
  have c2 := generationRange_cases g2 s2 e2 h2
  omega

/-- Every ID from 1 to 1008 lies in the resolved range of some generation. -/
theorem exists_generationRange (id : Int) (h : 1 ≤ id ∧ id ≤ 1008) :
    ∃ g s e, 1 ≤ g ∧ g ≤ 8 ∧ generationRange g = some (s, e) ∧ s ≤ id ∧ id ≤ e := by
  have hc : id ≤ 151 ∨ (152 ≤ id ∧ id ≤ 251) ∨ (252 ≤ id ∧ id ≤ 386) ∨
      (387 ≤ id ∧ id ≤ 493) ∨ (494 ≤ id ∧ id ≤ 649) ∨ (650 ≤ id ∧ id ≤ 721) ∨
      (722 ≤ id ∧ id ≤ 809) ∨ 810 ≤ id := by omega
  rcases hc with c | c | c | c | c | c | c | c
  · exact ⟨1, 1, 151, by decide, by decide, rfl, by omega, by omega⟩
  · exact ⟨2, 152, 251, by decide, by decide, rfl, by omega, by omega⟩
  · exact ⟨3, 252, 386, by decide, by decide, rfl, by omega, by omega⟩
  · exact ⟨4, 387, 493, by decide, by decide, rfl, by omega, by omega⟩
  · exact ⟨5, 494, 649, by decide, by decide, rfl, by omega, by omega⟩
  · exact ⟨6, 650, 721, by decide, by decide, rfl, by omega, by omega⟩
  · exact ⟨7, 722, 809, by decide, by decide, rfl, by omega, by omega⟩
  · exact ⟨8, 810, 1008, by decide, by decide, rfl, by omega, by omega⟩

/-! ## The generation resolver and `generationPokedex` -/

/-- C1: for every generation number 1..8 the resolved inclusive ID range is the
fixed pair of the table, and `generationPokedex` then runs its loop over exactly
that range; for every other integer `generationPokedex` returns the error
"invalid generation number" with no list and leaves the trace of fetches
unchanged, whatever the upstream is. -/
theorem generationPokedex_resolver :
    (generationRange 1 = some (1, 151) ∧ generationRange 2 = some (152, 251) ∧
      generationRange 3 = some (252, 386) ∧ generationRange 4 = some (387, 493) ∧
      generationRange 5 = some (494, 649) ∧ generationRange 6 = some (650, 721) ∧
      generationRange 7 = some (722, 809) ∧ generationRange 8 = some (810, 1008)) ∧
    (∀ (up : Upstream) (g s e : Int) (tr : Trace), generationRange g = some (s, e) →
      generationPokedex up g tr = generationLoop up e s [] tr) ∧
    (∀ (up : Upstream) (g : Int) (tr : Trace), ¬ (1 ≤ g ∧ g ≤ 8) →
      generationRange g = none ∧
      generationPokedex up g tr = (Except.error "invalid generation number", tr)) := by
  refine ⟨by decide, ?_, ?_⟩
  · intro up g s e tr h
    simp [generationPokedex, h]
  · intro up g tr h
    have hn := generationRange_none g h
    simp [generationPokedex, hn]

/-- C1 at concrete inputs: generation 3 runs the loop over 252..386, and the
generations 9, 0 and -1 are rejected without a fetch. -/
theorem generationPokedex_resolver_witness :
    generationPokedex upEcho 3 [] = generationLoop upEcho 386 252 [] [] ∧
    generationPokedex upEcho 9 [] = (Except.error "invalid generation number", []) ∧
    generationPokedex upEcho 0 [] = (Except.error "invalid generation number", []) ∧
    generationPokedex upDown (-1) [] = (Except.error "invalid generation number", []) :=
  ⟨generationPokedex_resolver.2.1 upEcho 3 252 386 [] (by decide),
   (generationPokedex_resolver.2.2 upEcho 9 [] (by decide)).2,
   (generationPokedex_resolver.2.2 upEcho 0 [] (by decide)).2,
   (generationPokedex_resolver.2.2 upDown (-1) [] (by decide)).2⟩

/-- C2: for a generation `g` in 1..8 with resolved range `[s, e]` and an upstream
that succeeds for every ID in `s..e`, `generationPokedex` succeeds; it fetches
exactly the IDs `s, s+1, ..., e` in increasing order; the list has `e - s + 1`
records and its `i`-th record is the one the upstream returns for ID `s + i`;
generation 1 yields 151 records, those of the IDs 1..151. -/
theorem generationPokedex_all_ok (up : Upstream) (g s e : Int) (tr : Trace)
    (hg : 1 ≤ g ∧ g ≤ 8) (hr : generationRange g = some (s, e))
    (hok : ∀ id, s ≤ id → id ≤ e → ∃ p, up (idURL id) = Except.ok p) :
    ∃ l : List Pokemon,
      generationPokedex up g tr =
        (Except.ok l, tr ++ (idsFrom s (e - s + 1).toNat).map Fetch.byID) ∧
      (l.length : Int) = e - s + 1 ∧
      (∀ (i : Nat) (h : i < l.length), up (idURL (s + (i : Int))) = Except.ok l[i]) ∧
      l.map Except.ok = (idsFrom s (e - s + 1).toNat).map (fun id => up (idURL id)) ∧
      (g = 1 → l.length = 151 ∧
        l.map Except.ok = (idsFrom 1 151).map (fun id => up (idURL id))) := by
  obtain ⟨_, _, hs1, hse, _⟩ := generationRange_some g s e hr
  let f : Int → Pokemon := fun id =>
    match up (idURL id) with
    | Except.ok p => p
    | Except.error _ => { Generation := 0, ID := 0, Name := "", Types := [], FrontDefault := "" }
  have hf : ∀ id, s ≤ id → id ≤ e → up (idURL id) = Except.ok (f id) := by
    intro id h1 h2
    obtain ⟨p, hp⟩ := hok id h1 h2
    simp only [f, hp]
  have hrun : generationPokedex up g tr =
      (Except.ok ((idsFrom s (e - s + 1).toNat).map f),
        tr ++ (idsFrom s (e - s + 1).toNat).map Fetch.byID) := by
    have h := generationLoop_ok up f e (e - s + 1).toNat s [] tr (by omega) hf
    simpa [generationPokedex, hr] using h
  have hmap : ((idsFrom s (e - s + 1).toNat).map f).map Except.ok =
      (idsFrom s (e - s + 1).toNat).map (fun id => up (idURL id)) := by
    rw [List.map_map]
    apply List.map_congr_left
    intro id hid
    rw [mem_idsFrom] at hid
    simp only [Function.comp]
    rw [hf id hid.1 (by omega)]
  refine ⟨_, hrun, ?_, ?_, hmap, ?_⟩
  · rw [List.length_map, idsFrom_length]
    omega
  · intro i h
    rw [List.length_map, idsFrom_length] at h
    have hget := idsFrom_getElem? (e - s + 1).toNat s i h
    have hlt : i < (idsFrom s (e - s + 1).toNat).length := by rw [idsFrom_length]; exact h
    rw [List.getElem?_eq_getElem hlt] at hget
    rw [List.getElem_map, Option.some.inj hget]
    exact hf _ (by omega) (by omega)
  · intro hg1
    subst hg1
    have : s = 1 ∧ e = 151 := by
      have h := hr
      simp [generationRange] at h
      omega
    obtain ⟨rfl, rfl⟩ := this
    refine ⟨by rw [List.length_map, idsFrom_length]; rfl, ?_⟩
    exact hmap

/-- C2 at a concrete input: generation 1 against an upstream that answers
every request. -/
theorem generationPokedex_all_ok_witness :
    ∃ l : List Pokemon,
      generationPokedex upEcho 1 [] =
        (Except.ok l, [] ++ (idsFrom 1 ((151 : Int) - 1 + 1).toNat).map Fetch.byID) ∧
      (l.length : Int) = 151 - 1 + 1 ∧
      (∀ (i : Nat) (h : i < l.length), upEcho (idURL (1 + (i : Int))) = Except.ok l[i]) ∧
      l.map Except.ok = (idsFrom 1 ((151 : Int) - 1 + 1).toNat).map (fun id => upEcho (idURL id)) ∧
      ((1 : Int) = 1 → l.length = 151 ∧
        l.map Except.ok = (idsFrom 1 151).map (fun id => upEcho (idURL id))) :=
  generationPokedex_all_ok upEcho 1 1 151 [] (by decide) (by decide)
    (fun id _ _ => ⟨_, rfl⟩)

/-- C3: for a generation `g` in 1..8 with resolved range `[s, e]` and an upstream
that fails for at least one ID of the range, there is a smallest failing ID `k`;
`generationPokedex` returns the error of the fetch of `k` and no list, it fetches
exactly the IDs `s, ..., k` in increasing order and no ID above `k`; and a
`/generation` POST whose form parses to `g` is answered with status 500 without
any template being executed. -/
theorem generationPokedex_fail_fast (up : Upstream) (tmpl : Template) (r : Request)
    (g s e : Int) (hg : 1 ≤ g ∧ g ≤ 8) (hr : generationRange g = some (s, e))
    (hfail : ∃ id, s ≤ id ∧ id ≤ e ∧ ∃ err, up (idURL id) = Except.error err) :
    ∃ (k : Int) (err : Error),
      s ≤ k ∧ k ≤ e ∧ up (idURL k) = Except.error err ∧
      (∀ id, s ≤ id → id < k → ∃ p, up (idURL id) = Except.ok p) ∧
      (∀ tr : Trace, generationPokedex up g tr =
        (Except.error err, tr ++ (idsFrom s (k - s + 1).toNat).map Fetch.byID)) ∧
      (∀ id, k < id → Fetch.byID id ∉ (idsFrom s (k - s + 1).toNat).map Fetch.byID) ∧
      (r.Method = MethodPost → r.ParseForm = none →
        Atoi (r.FormValue "generation") = Except.ok g →
        (serveGenerationPage up tmpl r World.fresh).w.code = 500 ∧
        (serveGenerationPage up tmpl r World.fresh).executed = [] ∧
        (serveGenerationPage up tmpl r World.fresh).fetches =
          (idsFrom s (k - s + 1).toNat).map Fetch.byID) := by
  have _ := hg
  obtain ⟨id, h1, h2, hid⟩ := hfail
  obtain ⟨k, err, hk1, hk2, hkerr, hbefore⟩ := exists_first_failure up s id h1 hid
  have hrun : ∀ tr : Trace, generationPokedex up g tr =
      (Except.error err, tr ++ (idsFrom s (k - s + 1).toNat).map Fetch.byID) := by
    intro tr
    have h := generationLoop_error up e k err (k - s).toNat s [] tr rfl hk1 (by omega)
      hbefore hkerr
    have hn : (k - s + 1).toNat = (k - s).toNat + 1 := by omega
    rw [hn]
    simpa [generationPokedex, hr] using h
  refine ⟨k, err, hk1, by omega, hkerr, hbefore, hrun, ?_, ?_⟩
  · intro x hx hmem
    rw [List.mem_map] at hmem
    obtain ⟨y, hy, hyx⟩ := hmem
    rw [mem_idsFrom] at hy
    have : y = x := by injection hyx
    omega
  · intro hm hp ha
    have h := hrun World.fresh.fetches
    simp only [serveGenerationPage, hm, hp, ha, h, if_true]
    exact ⟨rfl, rfl, by simp [World.fresh]⟩

/-- C3 at a concrete input: generation 2 against an upstream that fails for
ID 154 only; the `/generation` POST with the field "2" is answered with 500, no
template is executed, and the fetches stop at a failing ID of 152..251. -/
theorem generationPokedex_fail_fast_witness :
    (serveGenerationPage (upMissing (idURL 154)) tmplOK
      (sampleRequest "POST" "generation" "2") World.fresh).w.code = 500 ∧
    (serveGenerationPage (upMissing (idURL 154)) tmplOK
      (sampleRequest "POST" "generation" "2") World.fresh).executed = [] ∧
    ∃ (k : Int) (err : Error),
      152 ≤ k ∧ k ≤ 251 ∧ upMissing (idURL 154) (idURL k) = Except.error err ∧
      generationPokedex (upMissing (idURL 154)) 2 [] =
        (Except.error err, [] ++ (idsFrom 152 (k - 152 + 1).toNat).map Fetch.byID) ∧
      (serveGenerationPage (upMissing (idURL 154)) tmplOK
        (sampleRequest "POST" "generation" "2") World.fresh).fetches =
          (idsFrom 152 (k - 152 + 1).toNat).map Fetch.byID :=
  match generationPokedex_fail_fast (upMissing (idURL 154)) tmplOK
      (sampleRequest "POST" "generation" "2") 2 152 251 (by decide) (by decide)
      ⟨154, by decide, by decide, _, rfl⟩ with
  | ⟨k, err, h1, h2, h3, _, h5, _, h7⟩ =>
    ⟨(h7 rfl rfl rfl).1, (h7 rfl rfl rfl).2.1, k, err, h1, h2, h3, h5 [],
      (h7 rfl rfl rfl).2.2⟩

/-! ## The starter catalog -/

/-- C4: for every iteration order of the starter catalog (a permutation of its
27 entries, whose keys are 1..27) and every upstream that succeeds for all
catalog IDs, `startersPokedex` succeeds with exactly 27 records: for each
visited entry `(k, id)`, in iteration order, the record fetched for `id` with
its `Generation` set to `k` and the other fields as fetched; the result is a
permutation of that list taken in catalog order. -/
theorem startersPokedex_all_ok (up : Upstream) (order : List (Int × Int)) (tr : Trace)
    (fetched : Int → Pokemon) (hperm : order.Perm generations)
    (hok : ∀ x ∈ generations, up (idURL x.2) = Except.ok (fetched x.2)) :
    generations.length = 27 ∧ generations.map Prod.fst = idsFrom 1 27 ∧
    ∃ l : List Pokemon,
      startersPokedex up order tr =
        (Except.ok l, tr ++ order.map (fun x => Fetch.byID x.2)) ∧
      l.length = 27 ∧
      l = order.map (fun x =>
        { Generation := x.1, ID := (fetched x.2).ID, Name := (fetched x.2).Name,
          Types := (fetched x.2).Types, FrontDefault := (fetched x.2).FrontDefault }) ∧
      l.Perm (generations.map (fun x =>
        { Generation := x.1, ID := (fetched x.2).ID, Name := (fetched x.2).Name,
          Types := (fetched x.2).Types, FrontDefault := (fetched x.2).FrontDefault })) := by
  refine ⟨rfl, by decide, _, ?_, ?_, rfl, hperm.map _⟩
  · have h := startersLoop_ok up fetched order [] tr
      (fun x hx => hok x (hperm.mem_iff.mp hx))
    simpa [startersPokedex] using h
  · rw [List.length_map, hperm.length_eq]
    rfl

/-- C4 at a concrete input: the catalog visited backwards, against an upstream
that answers every request. -/
theorem startersPokedex_all_ok_witness :
    generations.length = 27 ∧ generations.map Prod.fst = idsFrom 1 27 ∧
    ∃ l : List Pokemon,
      startersPokedex upEcho generations.reverse [] =
        (Except.ok l, [] ++ generations.reverse.map (fun x => Fetch.byID x.2)) ∧
      l.length = 27 ∧
      l = generations.reverse.map (fun x =>
        { Generation := x.1, ID := 0, Name := idURL x.2, Types := [], FrontDefault := "" }) ∧
      l.Perm (generations.map (fun x =>
        { Generation := x.1, ID := 0, Name := idURL x.2, Types := [], FrontDefault := "" })) :=
  startersPokedex_all_ok upEcho generations.reverse []
    (fun id => { Generation := 0, ID := 0, Name := idURL id, Types := [], FrontDefault := "" })
    (List.reverse_perm generations) (fun _ _ => rfl)

/-- C5: for every iteration order of the starter catalog and every upstream that
fails for at least one catalog ID, `startersPokedex` returns an error and no
list: the order splits at its first failing entry, the error returned is that
entry's, and the fetches performed are exactly those of the entries up to and
including it, so no later entry is fetched. -/
theorem startersPokedex_fail_fast (up : Upstream) (order : List (Int × Int))
    (hperm : order.Perm generations)
    (hfail : ∃ x ∈ generations, ∃ err, up (idURL x.2) = Except.error err) :
    ∃ (pre : List (Int × Int)) (x : Int × Int) (post : List (Int × Int)) (err : Error),
      order = pre ++ x :: post ∧
      (∀ y ∈ pre, ∃ p, up (idURL y.2) = Except.ok p) ∧
      up (idURL x.2) = Except.error err ∧
      ∀ tr : Trace, startersPokedex up order tr =
        (Except.error err, tr ++ (pre ++ [x]).map (fun y => Fetch.byID y.2)) := by
  obtain ⟨x, hx, herr⟩ := hfail
  obtain ⟨pre, y, post, err, hsplit, hpre, hy⟩ :=
    exists_first_failing_entry up order ⟨x, hperm.mem_iff.mpr hx, herr⟩
  refine ⟨pre, y, post, err, hsplit, hpre, hy, ?_⟩
  intro tr
  rw [startersPokedex, hsplit]
  exact startersLoop_error up y post err hy pre [] tr hpre

/-- C5 at a concrete input: the catalog in the order of the literal, against an
upstream that fails for ID 7 only. -/
theorem startersPokedex_fail_fast_witness :
    ∃ (pre : List (Int × Int)) (x : Int × Int) (post : List (Int × Int)) (err : Error),
      generations = pre ++ x :: post ∧
      (∀ y ∈ pre, ∃ p, upMissing (idURL 7) (idURL y.2) = Except.ok p) ∧
      upMissing (idURL 7) (idURL x.2) = Except.error err ∧
      ∀ tr : Trace, startersPokedex (upMissing (idURL 7)) generations tr =
        (Except.error err, tr ++ (pre ++ [x]).map (fun y => Fetch.byID y.2)) :=
  startersPokedex_fail_fast (upMissing (idURL 7)) generations (List.Perm.refl _)
    ⟨(3, 7), by decide, _, rfl⟩

/-- C6: a request to `/starters` whose method is not GET is answered with
status 405, with no upstream fetch and no template executed; a GET request is
never answered with 405 (its status is 200 or 500). -/
theorem serveStartersPage_method (up : Upstream) (tmpl : Template)
    (order : List (Int × Int)) (r : Request) :
    (r.Method ≠ MethodGet →
      (serveStartersPage up tmpl order r World.fresh).w.code = 405 ∧
      (serveStartersPage up tmpl order r World.fresh).fetches = [] ∧
      (serveStartersPage up tmpl order r World.fresh).executed = []) ∧
    (r.Method = MethodGet →
      (serveStartersPage up tmpl order r World.fresh).w.code ≠ 405 ∧
      ((serveStartersPage up tmpl order r World.fresh).w.code = 200 ∨
        (serveStartersPage up tmpl order r World.fresh).w.code = 500)) := by
  constructor
  · intro h
    simp only [serveStartersPage, if_neg h]
    exact ⟨rfl, rfl, rfl⟩
  · intro h
    have key : (serveStartersPage up tmpl order r World.fresh).w.code = 200 ∨
        (serveStartersPage up tmpl order r World.fresh).w.code = 500 := by
      simp only [serveStartersPage, if_pos h]
      rcases hs : startersPokedex up order World.fresh.fetches with ⟨res, tr⟩
      cases res with
      | error e => right; rfl
      | ok l =>
        simp only
        have hc := code_after_Execute tmpl (TemplateData.pokemonList l) tr
        rcases he : Execute tmpl (TemplateData.pokemonList l)
          { World.fresh with fetches := tr } with ⟨oerr, σ1⟩
        rw [he] at hc
        cases oerr with
        | none => left; exact hc.1
        | some err => exact hc.2 err
    refine ⟨?_, key⟩
    rcases key with h1 | h1 <;> rw [h1] <;> decide

/-- C6 at concrete inputs: a POST is answered with 405 and fetches nothing; a GET
is not answered with 405. -/
theorem serveStartersPage_method_witness :
    ((serveStartersPage upEcho tmplOK generations (sampleRequest "POST" "" "")
        World.fresh).w.code = 405 ∧
      (serveStartersPage upEcho tmplOK generations (sampleRequest "POST" "" "")
        World.fresh).fetches = [] ∧
      (serveStartersPage upEcho tmplOK generations (sampleRequest "POST" "" "")
        World.fresh).executed = []) ∧
    ((serveStartersPage upEcho tmplOK generations (sampleRequest "GET" "" "")
        World.fresh).w.code ≠ 405 ∧
      ((serveStartersPage upEcho tmplOK generations (sampleRequest "GET" "" "")
        World.fresh).w.code = 200 ∨
       (serveStartersPage upEcho tmplOK generations (sampleRequest "GET" "" "")
        World.fresh).w.code = 500)) :=
  ⟨(serveStartersPage_method upEcho tmplOK generations (sampleRequest "POST" "" "")).1
      (by decide),
   (serveStartersPage_method upEcho tmplOK generations (sampleRequest "GET" "" "")).2 rfl⟩

/-! ## The page handlers -/

/-- C7: for a `/pokedex` POST whose form parses: if the `pokedexID` field parses
as the integer `n` (as "25" does), the handler performs exactly one ID fetch of
`n` and no name fetch; otherwise (as for "pikachu") exactly one name fetch of the
raw field and no ID fetch; on fetch success the only template execution gets
exactly the fetched record; so two such requests, one on the ID path and one on
the name path, whose upstream answers are equal render equal records. -/
theorem servePokedexPage_dispatch (up : Upstream) (tmpl : Template) (r : Request)
    (hm : r.Method = MethodPost) (hp : r.ParseForm = none) :
    (∀ n, Atoi (r.FormValue "pokedexID") = Except.ok n →
      (servePokedexPage up tmpl r World.fresh).fetches = [Fetch.byID n] ∧
      ∀ p, up (idURL n) = Except.ok p →
        (servePokedexPage up tmpl r World.fresh).executed = [TemplateData.pokemon p]) ∧
    (∀ e, Atoi (r.FormValue "pokedexID") = Except.error e →
      (servePokedexPage up tmpl r World.fresh).fetches =
        [Fetch.byName (r.FormValue "pokedexID")] ∧
      ∀ p, up (nameURL (r.FormValue "pokedexID")) = Except.ok p →
        (servePokedexPage up tmpl r World.fresh).executed = [TemplateData.pokemon p]) ∧
    Atoi "25" = Except.ok 25 ∧ (∃ e, Atoi "pikachu" = Except.error e) ∧
    (∀ (r2 : Request) (n : Int) (e : Error),
      r2.Method = MethodPost → r2.ParseForm = none →
      Atoi (r.FormValue "pokedexID") = Except.ok n →
      Atoi (r2.FormValue "pokedexID") = Except.error e →
      up (idURL n) = up (nameURL (r2.FormValue "pokedexID")) →
      (servePokedexPage up tmpl r World.fresh).executed =
        (servePokedexPage up tmpl r2 World.fresh).executed) := by
  have hid : ∀ n, Atoi (r.FormValue "pokedexID") = Except.ok n →
      (servePokedexPage up tmpl r World.fresh).fetches = [Fetch.byID n] ∧
      (servePokedexPage up tmpl r World.fresh).executed =
        match up (idURL n) with
        | Except.ok p => [TemplateData.pokemon p]
        | Except.error _ => [] := by
    intro n ha
    simp only [servePokedexPage, hm, hp, ha, if_true, idpokedex]
    cases hu : up (idURL n) with
    | error e => exact ⟨rfl, rfl⟩
    | ok p =>
      simp only [Execute]
      cases (tmpl (TemplateData.pokemon p)).err <;> exact ⟨rfl, rfl⟩
  have hname : ∀ (r2 : Request) (e : Error), r2.Method = MethodPost → r2.ParseForm = none →
      Atoi (r2.FormValue "pokedexID") = Except.error e →
      (servePokedexPage up tmpl r2 World.fresh).fetches =
        [Fetch.byName (r2.FormValue "pokedexID")] ∧
      (servePokedexPage up tmpl r2 World.fresh).executed =
        match up (nameURL (r2.FormValue "pokedexID")) with
        | Except.ok p => [TemplateData.pokemon p]
        | Except.error _ => [] := by
    intro r2 e hm2 hp2 ha
    simp only [servePokedexPage, hm2, hp2, ha, if_true, namepokedex]
    cases hu : up (nameURL (r2.FormValue "pokedexID")) with
    | error e => exact ⟨rfl, rfl⟩
    | ok p =>
      simp only [Execute]
      cases (tmpl (TemplateData.pokemon p)).err <;> exact ⟨rfl, rfl⟩
  refine ⟨?_, ?_, rfl, ⟨_, rfl⟩, ?_⟩
  · intro n ha
    refine ⟨(hid n ha).1, ?_⟩
    intro p hu
    rw [(hid n ha).2, hu]
  · intro e ha
    refine ⟨(hname r e hm hp ha).1, ?_⟩
    intro p hu
    rw [(hname r e hm hp ha).2, hu]
  · intro r2 n e hm2 hp2 ha ha2 hagree
    rw [(hid n ha).2, (hname r2 e hm2 hp2 ha2).2, hagree]

/-- C7 at concrete inputs: the field "25" causes the single ID fetch of 25, the
field "pikachu" the single name fetch of "pikachu". -/
theorem servePokedexPage_dispatch_witness :
    (servePokedexPage upEcho tmplOK (sampleRequest "POST" "pokedexID" "25")
      World.fresh).fetches = [Fetch.byID 25] ∧
    (servePokedexPage upEcho tmplOK (sampleRequest "POST" "pokedexID" "pikachu")
      World.fresh).fetches = [Fetch.byName "pikachu"] :=
  ⟨((servePokedexPage_dispatch upEcho tmplOK (sampleRequest "POST" "pokedexID" "25")
      rfl rfl).1 25 rfl).1,
   ((servePokedexPage_dispatch upEcho tmplOK (sampleRequest "POST" "pokedexID" "pikachu")
      rfl rfl).2.1 _ rfl).1⟩

/-- C8: for a `/pokedex` POST whose form parses and whose upstream fetch fails,
the status is 400 exactly when the `pokedexID` field did not parse as an integer
(name path) and 500 exactly when it did (ID path); in both cases no template is
executed. -/
theorem servePokedexPage_fetch_failure (up : Upstream) (tmpl : Template) (r : Request)
    (hm : r.Method = MethodPost) (hp : r.ParseForm = none)
    (hidfail : ∀ n, Atoi (r.FormValue "pokedexID") = Except.ok n →
      ∃ err, up (idURL n) = Except.error err)
    (hnamefail : ∀ e, Atoi (r.FormValue "pokedexID") = Except.error e →
      ∃ err, up (nameURL (r.FormValue "pokedexID")) = Except.error err) :
    ((servePokedexPage up tmpl r World.fresh).w.code = 400 ↔
      ∃ e, Atoi (r.FormValue "pokedexID") = Except.error e) ∧
    ((servePokedexPage up tmpl r World.fresh).w.code = 500 ↔
      ∃ n, Atoi (r.FormValue "pokedexID") = Except.ok n) ∧
    (servePokedexPage up tmpl r World.fresh).executed = [] := by
  cases ha : Atoi (r.FormValue "pokedexID") with
  | error e =>
    obtain ⟨err, herr⟩ := hnamefail e ha
    simp only [servePokedexPage, hm, hp, ha, if_true, namepokedex, herr]
    refine ⟨⟨fun _ => ⟨e, rfl⟩, fun _ => rfl⟩, ⟨fun h => ?_, fun h => ?_⟩, rfl⟩
    · exact absurd h (by decide)
    · obtain ⟨n, hn⟩ := h
      cases hn
  | ok n =>
    obtain ⟨err, herr⟩ := hidfail n ha
    simp only [servePokedexPage, hm, hp, ha, if_true, idpokedex, herr]
    refine ⟨⟨fun h => ?_, fun h => ?_⟩, ⟨fun _ => ⟨n, rfl⟩, fun _ => rfl⟩, rfl⟩
    · exact absurd h (by decide)
    · obtain ⟨e, he⟩ := h
      cases he

/-- C8 at concrete inputs, against an upstream that is down: the field
"pikachu" gives 400, the field "25" gives 500. -/
theorem servePokedexPage_fetch_failure_witness :
    (servePokedexPage upDown tmplOK (sampleRequest "POST" "pokedexID" "pikachu")
      World.fresh).w.code = 400 ∧
    (servePokedexPage upDown tmplOK (sampleRequest "POST" "pokedexID" "25")
      World.fresh).w.code = 500 :=
  ⟨(servePokedexPage_fetch_failure upDown tmplOK
      (sampleRequest "POST" "pokedexID" "pikachu") rfl rfl
      (fun _ _ => ⟨_, rfl⟩) (fun _ _ => ⟨_, rfl⟩)).1.mpr ⟨_, rfl⟩,
   (servePokedexPage_fetch_failure upDown tmplOK
      (sampleRequest "POST" "pokedexID" "25") rfl rfl
      (fun _ _ => ⟨_, rfl⟩) (fun _ _ => ⟨_, rfl⟩)).2.1.mpr ⟨25, rfl⟩⟩

/-- C9 as stated fails: a `/generation` POST with the field "9" has a form
that parses and a template that renders, and the upstream never fails, yet the
status is 500 (and nothing is fetched): 500 is not equivalent to a fetch error
in the resolved range. -/
theorem serveGenerationPage_status_counterexample :
    (sampleRequest "POST" "generation" "9").Method = MethodPost ∧
    (sampleRequest "POST" "generation" "9").ParseForm = none ∧
    (∀ l, (tmplOK (TemplateData.pokemonList l)).err = none) ∧
    (serveGenerationPage upEcho tmplOK (sampleRequest "POST" "generation" "9")
      World.fresh).fetches = [] ∧
    ¬ ((serveGenerationPage upEcho tmplOK (sampleRequest "POST" "generation" "9")
          World.fresh).w.code = 500 ↔
        ∃ g, Atoi ((sampleRequest "POST" "generation" "9").FormValue "generation") =
            Except.ok g ∧
          ∃ s e id, generationRange g = some (s, e) ∧ s ≤ id ∧ id ≤ e ∧
            ∃ err, upEcho (idURL id) = Except.error err) := by
  refine ⟨rfl, rfl, fun _ => rfl, rfl, ?_⟩
  intro h
  obtain ⟨g, _, s, e, id, _, _, _, err, herr⟩ := h.mp rfl
  cases herr

/-- C9, amended: for a `/generation` POST whose form parses and whose template
renders, the status is 400 exactly when the `generation` field fails to parse as
an integer, and then no fetch is made; it is 500 exactly when the field parses
as an integer `g` and `generationPokedex` fails, that is, `g` is outside 1..8 (and
then no fetch is made) or some ID of the resolved range fails upstream. -/
theorem serveGenerationPage_status (up : Upstream) (tmpl : Template) (r : Request)
    (hm : r.Method = MethodPost) (hp : r.ParseForm = none)
    (hrender : ∀ l, (tmpl (TemplateData.pokemonList l)).err = none) :
    ((serveGenerationPage up tmpl r World.fresh).w.code = 400 ↔
      ∃ e, Atoi (r.FormValue "generation") = Except.error e) ∧
    ((∃ e, Atoi (r.FormValue "generation") = Except.error e) →
      (serveGenerationPage up tmpl r World.fresh).fetches = []) ∧
    ((serveGenerationPage up tmpl r World.fresh).w.code = 500 ↔
      ∃ g, Atoi (r.FormValue "generation") = Except.ok g ∧
        (¬ (1 ≤ g ∧ g ≤ 8) ∨
          ∃ s e id, generationRange g = some (s, e) ∧ s ≤ id ∧ id ≤ e ∧
            ∃ err, up (idURL id) = Except.error err)) ∧
    (∀ g, Atoi (r.FormValue "generation") = Except.ok g → ¬ (1 ≤ g ∧ g ≤ 8) →
      (serveGenerationPage up tmpl r World.fresh).fetches = []) := by
  cases ha : Atoi (r.FormValue "generation") with
  | error e =>
    simp only [serveGenerationPage, hm, hp, ha, if_true]
    refine ⟨⟨fun _ => ⟨e, rfl⟩, fun _ => rfl⟩, fun _ => rfl, ⟨fun h => ?_, fun h => ?_⟩, ?_⟩
    · exact absurd h (by decide)
    · obtain ⟨g, hg, _⟩ := h
      cases hg
    · intro g hg
      cases hg
  | ok g =>
    have hcode : (serveGenerationPage up tmpl r World.fresh).w.code =
        match (generationPokedex up g []).1 with
        | Except.error _ => 500
        | Except.ok _ => 200 := by
      simp only [serveGenerationPage, hm, hp, ha, if_true]
      rcases hgen : generationPokedex up g World.fresh.fetches with ⟨res, tr⟩
      have hgen2 : generationPokedex up g [] = (res, tr) := hgen
      rw [hgen2]
      cases res with
      | error err => rfl
      | ok l =>
        simp only
        have hc := (code_after_Execute tmpl (TemplateData.pokemonList l) tr).1
        have he : (Execute tmpl (TemplateData.pokemonList l)
            { World.fresh with fetches := tr }).1 = none := hrender l
        rcases hex : Execute tmpl (TemplateData.pokemonList l)
            { World.fresh with fetches := tr } with ⟨oerr, σ1⟩
        rw [hex] at hc he
        simp only at he
        subst he
        exact hc
    have hinvalid : ¬ (1 ≤ g ∧ g ≤ 8) →
        generationPokedex up g [] = (Except.error "invalid generation number", []) := by
      intro hg
      simp [generationPokedex, generationRange_none g hg]
    refine ⟨⟨fun h => ?_, fun h => ?_⟩, fun h => ?_, ⟨fun h => ?_, fun h => ?_⟩, ?_⟩
    · rw [hcode] at h
      cases hres : (generationPokedex up g []).1 <;> rw [hres] at h <;> simp at h
    · obtain ⟨e, he⟩ := h
      cases he
    · obtain ⟨e, he⟩ := h
      cases he
    · refine ⟨g, rfl, ?_⟩
      by_cases hg : 1 ≤ g ∧ g ≤ 8
      · right
        obtain ⟨s, e, hr⟩ := generationRange_isSome g hg
        rw [hcode] at h
        have herr : ∃ err, (generationPokedex up g []).1 = Except.error err := by
          cases hres : (generationPokedex up g []).1 with
          | error err => exact ⟨err, rfl⟩
          | ok l => rw [hres] at h; simp at h
        obtain ⟨id, h1, h2, hid⟩ := (generationPokedex_error_iff up g s e [] hr).mp herr
        exact ⟨s, e, id, hr, h1, h2, hid⟩
      · left; exact hg
    · obtain ⟨g2, hg2, hcase⟩ := h
      cases hg2
      rw [hcode]
      rcases hcase with hg | ⟨s, e, id, hr, h1, h2, hid⟩
      · rw [hinvalid hg]
      · obtain ⟨err, herr⟩ :=
          (generationPokedex_error_iff up g s e [] hr).mpr ⟨id, h1, h2, hid⟩
        rw [herr]
    · intro g2 hg2 hg
      cases hg2
      simp only [serveGenerationPage, hm, hp, ha, if_true]
      have h := hinvalid hg
      have h2 : generationPokedex up g World.fresh.fetches =
          (Except.error "invalid generation number", []) := h
      rw [h2]

/-- C9 (amended) at concrete inputs: the field "abc" gives 400 without a fetch,
the field "9" gives 500 without a fetch. -/
theorem serveGenerationPage_status_witness :
    (serveGenerationPage upEcho tmplOK (sampleRequest "POST" "generation" "abc")
      World.fresh).w.code = 400 ∧
    (serveGenerationPage upEcho tmplOK (sampleRequest "POST" "generation" "abc")
      World.fresh).fetches = [] ∧
    (serveGenerationPage upEcho tmplOK (sampleRequest "POST" "generation" "9")
      World.fresh).w.code = 500 ∧
    (serveGenerationPage upEcho tmplOK (sampleRequest "POST" "generation" "9")
      World.fresh).fetches = [] :=
  ⟨(serveGenerationPage_status upEcho tmplOK (sampleRequest "POST" "generation" "abc")
      rfl rfl (fun _ => rfl)).1.mpr ⟨_, rfl⟩,
   (serveGenerationPage_status upEcho tmplOK (sampleRequest "POST" "generation" "abc")
      rfl rfl (fun _ => rfl)).2.1 ⟨_, rfl⟩,
   (serveGenerationPage_status upEcho tmplOK (sampleRequest "POST" "generation" "9")
      rfl rfl (fun _ => rfl)).2.2.1.mpr ⟨9, rfl, Or.inl (by decide)⟩,
   (serveGenerationPage_status upEcho tmplOK (sampleRequest "POST" "generation" "9")
      rfl rfl (fun _ => rfl)).2.2.2 9 rfl (by decide)⟩

/-- C10 as stated fails: the entry with key 2 has ID 4, which is not in the
range the resolver assigns to generation 2 (it is in that of generation 1), and
with every fetch succeeding the record of ID 4 comes back stamped 2; the key 9
is no generation number for the resolver; and the entries with keys 1 and 2
both have their ID in the range of generation 1. -/
theorem starter_catalog_counterexample :
    ¬ (∀ x ∈ generations, ∃ s e, generationRange x.1 = some (s, e) ∧ s ≤ x.2 ∧ x.2 ≤ e) ∧
    ((2, 4) ∈ generations ∧ generationRange 2 = some (152, 251) ∧
      ¬ ((152 : Int) ≤ 4 ∧ (4 : Int) ≤ 251)) ∧
    ((9, 258) ∈ generations ∧ generationRange 9 = none) ∧
    (∃ l, startersPokedex upKanto generations [] =
        (Except.ok l, generations.map (fun x => Fetch.byID x.2)) ∧
      l[1]? = some { Generation := 2, ID := 4, Name := "charmander",
                     Types := [{ Name := "fire" }], FrontDefault := "4.png" }) ∧
    ¬ (∀ x ∈ generations, ∀ y ∈ generations, ∀ g s e,
        generationRange g = some (s, e) → (s ≤ x.2 ∧ x.2 ≤ e) → (s ≤ y.2 ∧ y.2 ≤ e) →
        x = y) := by
  refine ⟨?_, ⟨by decide, by decide, by decide⟩, ⟨by decide, by decide⟩,
    ⟨_, rfl, rfl⟩, ?_⟩
  · intro h
    obtain ⟨s, e, hr, h1, h2⟩ := h (2, 4) (by decide)
    have hr2 : generationRange 2 = some (152, 251) := by decide
    rw [hr2] at hr
    simp only [Option.some.injEq, Prod.mk.injEq] at hr
    obtain ⟨rfl, rfl⟩ := hr
    simp at h1
  · intro h
    have h12 := h (1, 1) (by decide) (2, 4) (by decide) 1 1 151 (by decide)
      (by decide) (by decide)
    exact absurd h12 (by decide)

/-- C10, amended: the starter catalog has 27 entries whose keys are the running
indices 1..27, each once, and whose IDs are pairwise distinct; the ID of every
entry lies in the range the resolver assigns to exactly one generation 1..8; and
several entries share a generation: the IDs 1, 4 and 7 of the entries with keys
1, 2 and 3 all lie in the range of generation 1. -/
theorem starter_catalog_entries :
    generations.length = 27 ∧ generations.map Prod.fst = idsFrom 1 27 ∧
    (generations.map Prod.snd).Nodup ∧
    (∀ x ∈ generations, ∃ g s e, 1 ≤ g ∧ g ≤ 8 ∧
      generationRange g = some (s, e) ∧ s ≤ x.2 ∧ x.2 ≤ e ∧
      ∀ g2 s2 e2, generationRange g2 = some (s2, e2) → s2 ≤ x.2 → x.2 ≤ e2 → g2 = g) ∧
    ((1, 1) ∈ generations ∧ (2, 4) ∈ generations ∧ (3, 7) ∈ generations ∧
      generationRange 1 = some (1, 151)) := by
  refine ⟨rfl, by decide, by decide, ?_, by decide, by decide, by decide, by decide⟩
  intro x hx
  have hb : ∀ y ∈ generations, 1 ≤ y.2 ∧ y.2 ≤ 1008 := by decide
  obtain ⟨g, s, e, hg1, hg8, hr, h1, h2⟩ := exists_generationRange x.2 (hb x hx)
  refine ⟨g, s, e, hg1, hg8, hr, h1, h2, ?_⟩
  intro g2 s2 e2 hr2 h3 h4
  exact generationRange_unique g g2 s e s2 e2 x.2 hr hr2 ⟨h1, h2⟩ ⟨h3, h4⟩

/-- C10 (amended) at a concrete entry: the ID 258 of the entry with key 9 lies in
the range of exactly one generation of the resolver. -/
theorem starter_catalog_entries_witness :
    ∃ g s e : Int, 1 ≤ g ∧ g ≤ 8 ∧
      generationRange g = some (s, e) ∧ s ≤ 258 ∧ 258 ≤ e ∧
      ∀ g2 s2 e2, generationRange g2 = some (s2, e2) → s2 ≤ 258 → 258 ≤ e2 → g2 = g :=
  starter_catalog_entries.2.2.2.1 (9, 258) (by decide)

end GroupieTracker
